import Mathlib

/-!
# teldrive: middleware assembly and the cache-aside metadata lookups

A shallow embedding of

* `internal/tgc/tgc.go`: `newBackoff`, `Middlewares`;
* `pkg/services/common.go`: `getParts`, `getDefaultChannel`, `getBotsToken`.

Go values are modelled as follows.  `int`, `int64` and `time.Duration` are `Int`
(a `time.Duration` counts nanoseconds, and a product of durations wraps at 64
bits); a Go `error` is a record holding its message; a Go `(value, error)`
return is a pair whose second component is `none` for `nil`; a nil slice is
the empty list; a run-time panic is an explicit outcome.  The collaborators a function talks to (cache,
relational store, transport) are explicit values, and every run reports the
cache it leaves behind together with the list of effects it performed.
-/

namespace Teldrive

/-! ## Go basics -/

/-- Go `error` value, identified by its message. -/
structure GoError where
  msg : String
  deriving DecidableEq, Repr

/-- The call `errors.New(msg)`. -/
def errorsNew (msg : String) : GoError := ⟨msg⟩

/-- Two's-complement reduction of an integer to the range of `int64`. -/
def wrapInt64 (x : Int) : Int := (x + 2 ^ 63) % 2 ^ 64 - 2 ^ 63

/-- Go `time.Duration`: a signed 64-bit count of nanoseconds. -/
abbrev Duration := Int

/-- The constant `time.Millisecond`. -/
def timeMillisecond : Duration := 1000000

/-- The constant `time.Second`. -/
def timeSecond : Duration := 1000 * timeMillisecond

/-- The constant `time.Minute`. -/
def timeMinute : Duration := 60 * timeSecond

/-- Product of two durations, as Go computes it on `int64`. -/
def durationMul (a b : Duration) : Duration := wrapInt64 (a * b)

/-- Optional value of the generated API types (`OptString`, `OptInt64`,
`OptBool`): a value together with its "set" flag. -/
structure Opt (α : Type) where
  Value : α
  Set : Bool
  deriving DecidableEq, Repr

/-- The method `IsSet` of an optional value. -/
def Opt.IsSet {α : Type} (o : Opt α) : Bool := o.Set

/-! ## `internal/tgc/tgc.go` -/

/-- The fields of `backoff.ExponentialBackOff` (library `cenkalti/backoff`);
the two `float64` factors are kept as the rationals they denote exactly. -/
structure ExponentialBackOff where
  InitialInterval : Duration
  RandomizationFactor : Rat
  Multiplier : Rat
  MaxInterval : Duration
  MaxElapsedTime : Duration
  deriving DecidableEq, Repr

/-- The library constructor `backoff.NewExponentialBackOff()` with its
documented defaults (500ms, 0.5, 1.5, 60s, 15min). -/
def NewExponentialBackOff : ExponentialBackOff :=
  { InitialInterval := 500 * timeMillisecond
    RandomizationFactor := 1 / 2
    Multiplier := 3 / 2
    MaxInterval := 60 * timeSecond
    MaxElapsedTime := 15 * timeMinute }

/-- The `float64` constant `1.1`: the double nearest to 11/10, which is
`4953959590107546 / 2^52`. -/
def float64_1_1 : Rat := 2476979795053773 / 2251799813685248

/-- Source `newBackoff` (tgc.go lines 116-122). -/
def newBackoff (timeout : Duration) : ExponentialBackOff :=
  let b := NewExponentialBackOff
  let b := { b with Multiplier := float64_1_1 }
  let b := { b with MaxElapsedTime := timeout }
  let b := { b with MaxInterval := 10 * timeSecond }
  b

/-- The fields of `config.TGConfig` read by `Middlewares`. -/
structure TGConfig where
  ReconnectTimeout : Duration
  RateLimit : Bool
  Rate : Int
  RateBurst : Int
  deriving DecidableEq, Repr

/-- A `telegram.Middleware` value, by the constructor call that built it:
`floodwait.NewSimpleWaiter()`, `recovery.New(ctx, b)`, `retry.New(n)` and
`ratelimit.New(rate.Every(every), burst)`. -/
inductive Middleware where
  | FloodWaiter
  | Recoverer (b : ExponentialBackOff)
  | Retrier (retries : Int)
  | RateLimiter (every : Duration) (burst : Int)
  deriving DecidableEq, Repr

/-- Whether a middleware is a client-side rate limiter. -/
def Middleware.isRateLimiter : Middleware → Bool
  | .RateLimiter _ _ => true
  | _ => false

/-- Source `Middlewares` (tgc.go lines 103-114). -/
def Middlewares (config : TGConfig) (retries : Int) : List Middleware :=
  let middlewares : List Middleware :=
    [ Middleware.FloodWaiter,
      Middleware.Recoverer (newBackoff config.ReconnectTimeout),
      Middleware.Retrier retries ]
  if config.RateLimit then
    middlewares ++
      [Middleware.RateLimiter (durationMul timeMillisecond config.Rate) config.RateBurst]
  else
    middlewares

/-! ## Cache keys (`fmt.Sprintf`) -/

/-- The character of a decimal digit. -/
def digitChar (d : Nat) : Char := Char.ofNat (48 + d)

/-- Decimal digit values of `n`, least significant first, produced by repeated
division by ten; `fuel` bounds the number of divisions. -/
def digitsFuel : Nat → Nat → List Nat
  | 0, _ => []
  | fuel + 1, n => if n = 0 then [] else (n % 10) :: digitsFuel fuel (n / 10)

/-- Decimal digits of a natural number, most significant first; `0` prints
as the single digit `0`. -/
def natDigits (n : Nat) : List Char :=
  if n = 0 then ['0'] else ((digitsFuel n n).reverse).map digitChar

/-- The verb `%d` of `fmt.Sprintf` on an integer: an optional minus sign
followed by the decimal digits of the magnitude. -/
def formatInt (i : Int) : List Char :=
  if i < 0 then '-' :: natDigits i.natAbs else natDigits i.natAbs

/-- Key of `getParts` (common.go line 24):
`fmt.Sprintf("files:messages:%s", file.ID.Value)`. -/
def partsKey (fileID : String) : String :=
  "files:messages:" ++ fileID

/-- Key of `getDefaultChannel` (common.go line 64):
`fmt.Sprintf("users:channel:%d", userID)`. -/
def channelKey (userID : Int) : String :=
  "users:channel:" ++ String.mk (formatInt userID)

/-- Key of `getBotsToken` (common.go line 91):
`fmt.Sprintf("users:bots:%d:%d", userID, channelId)`. -/
def botsKey (userID channelId : Int) : String :=
  "users:bots:" ++ String.mk (formatInt userID) ++ ":" ++ String.mk (formatInt channelId)

/-! ## Data read and produced by `pkg/services/common.go` -/

/-- The record `types.Part`. -/
structure Part where
  ID : Int
  Size : Int
  Salt : String
  DecryptedSize : Int
  deriving DecidableEq, Repr

/-- The record `api.Part`: one declared part of a file. -/
structure ApiPart where
  ID : Int
  Salt : Opt String
  deriving DecidableEq, Repr

/-- The fields of `api.File` read by `getParts`. -/
structure File where
  ID : Opt String
  Parts : List ApiPart
  ChannelId : Opt Int
  Encrypted : Opt Bool
  deriving DecidableEq, Repr

/-- The fields of `tg.Document` read by `getParts`. -/
structure Document where
  ID : Int
  Size : Int
  deriving DecidableEq, Repr

/-- The interface `tg.DocumentClass`: an empty document or a concrete one. -/
inductive DocumentClass where
  | documentEmpty (id : Int)
  | document (d : Document)
  deriving DecidableEq, Repr

/-- The record `tg.MessageMediaDocument`; its document is optional on the wire
and then holds a nil interface. -/
structure MessageMediaDocument where
  Document : Option DocumentClass
  deriving DecidableEq, Repr

/-- The interface `tg.MessageMediaClass`.  Only the media-document variant
carries data here; `other` stands for each remaining variant (photo, geo
point, contact, ...), told apart by a tag. -/
inductive MessageMediaClass where
  | messageMediaEmpty
  | messageMediaDocument (m : MessageMediaDocument)
  | other (tag : Nat)
  deriving DecidableEq, Repr

/-- The fields of `tg.Message` read by `getParts`; a message without media
holds a nil interface in `Media`. -/
structure Message where
  ID : Int
  Media : Option MessageMediaClass
  deriving DecidableEq, Repr

/-- The interface `tg.MessageClass`: an empty message (what the server
returns for a deleted or unknown id), a regular message or a service message. -/
inductive MessageClass where
  | messageEmpty (id : Int)
  | message (m : Message)
  | messageService (id : Int)
  deriving DecidableEq, Repr

/-- A Go run-time panic raised inside `getParts`. -/
inductive Panic where
  | typeAssertion (wanted : String)
  | indexOutOfRange (index length : Nat)
  deriving DecidableEq, Repr

/-- What a call that may panic ends with: a Go `(value, error)` return, or a
run-time panic. -/
inductive Outcome (α : Type) where
  | returned (value : α) (err : Option GoError)
  | panicked (p : Panic)
  deriving DecidableEq, Repr

/-- The unchecked assertion `message.(*tg.Message)` (common.go line 43). -/
def assertMessage : MessageClass → Except Panic Message
  | .message m => .ok m
  | _ => .error (.typeAssertion "*tg.Message")

/-- The unchecked assertion `item.Media.(*tg.MessageMediaDocument)`
(common.go line 44). -/
def assertMediaDocument : Option MessageMediaClass → Except Panic MessageMediaDocument
  | some (.messageMediaDocument m) => .ok m
  | _ => .error (.typeAssertion "*tg.MessageMediaDocument")

/-- The unchecked assertion `media.Document.(*tg.Document)` (common.go line 45). -/
def assertDocument : Option DocumentClass → Except Panic Document
  | some (.document d) => .ok d
  | _ => .error (.typeAssertion "*tg.Document")

/-- The document a transport record carries when it is a regular message
whose media is a media-document holding a concrete document; `none` for a
record of any other shape. -/
def documentOf : MessageClass → Option Document
  | .message { Media := some (.messageMediaDocument { Document := some (.document d) }), .. } =>
    some d
  | _ => none

/-! ## The cache store -/

/-- A value held by the cache: a sequence of parts, an `int64` or a sequence
of strings. -/
inductive CacheValue where
  | parts (ps : List Part)
  | int64 (n : Int)
  | strings (ss : List String)
  deriving DecidableEq, Repr

/-- A cache entry: the value and the time-to-live it was stored with, where
`0` means "no expiry". -/
structure CacheEntry where
  value : CacheValue
  ttl : Duration
  deriving DecidableEq, Repr

/-- Modelled from the spec: the state of the cache store behind `cache.Cacher`
(package `internal/cache`, absent from the sources at hand).  The spec gives
its contract as `Get(key) → (value, found)` and `Set(key, value, ttl)` with
`ttl = 0` meaning "no expiry", over structurally typed values.  The state is
an association list from keys to entries; expiry and eviction are acts of the
environment between calls, not of the functions embedded here. -/
abbrev Cache := List (String × CacheEntry)

/-- Modelled from the spec: the entry stored under a key, if any. -/
def Cache.entry (c : Cache) (key : String) : Option CacheEntry :=
  c.lookup key

/-- Modelled from the spec: `Set(key, value, ttl)` replaces whatever the key held. -/
def Cache.Set (c : Cache) (key : String) (value : CacheValue) (ttl : Duration) : Cache :=
  (key, { value := value, ttl := ttl }) :: c.filter (fun kv => kv.1 != key)

/-- Modelled from the spec: `Get(key, &parts)` into a `[]types.Part`; `none`
is a non-nil error (no entry, or an entry that does not decode as parts). -/
def Cache.GetParts (c : Cache) (key : String) : Option (List Part) :=
  match c.entry key with
  | some { value := .parts ps, .. } => some ps
  | _ => none

/-- Modelled from the spec: `Get(key, &channelId)` into an `int64`. -/
def Cache.GetInt64 (c : Cache) (key : String) : Option Int :=
  match c.entry key with
  | some { value := .int64 n, .. } => some n
  | _ => none

/-- Modelled from the spec: `Get(key, &bots)` into a `[]string`. -/
def Cache.GetStrings (c : Cache) (key : String) : Option (List String) :=
  match c.entry key with
  | some { value := .strings ss, .. } => some ss
  | _ => none

/-! ## The relational store -/

/-- The columns of `models.Channel` named by the query of `getDefaultChannel`. -/
structure ChannelRow where
  ChannelId : Int
  UserId : Int
  Selected : Bool
  deriving DecidableEq, Repr

/-- The columns of `models.Bot` named by the query of `getBotsToken`. -/
structure BotRow where
  Token : String
  UserId : Int
  ChannelId : Int
  deriving DecidableEq, Repr

/-- A state of the relational store behind `*gorm.DB`: the two tables, and the
error every query fails with when the store is out of order. -/
structure DB where
  channels : List ChannelRow
  bots : List BotRow
  fault : Option GoError
  deriving DecidableEq, Repr

/-- The query
`db.Model(&models.Channel{}).Where("user_id = ?", userID).Where("selected = ?", true).Pluck("channel_id", &channelIds)`:
the rows written to the destination slice and the `Error` field of the result.
A failed query leaves the destination as it was declared (nil). -/
def DB.pluckSelectedChannels (db : DB) (userID : Int) : List Int × Option GoError :=
  match db.fault with
  | some e => ([], some e)
  | none =>
    ((db.channels.filter (fun r => r.UserId == userID && r.Selected == true)).map
      (fun r => r.ChannelId), none)

/-- The query
`db.Model(&models.Bot{}).Where("user_id = ?", userID).Where("channel_id = ?", channelId).Pluck("token", &bots)`. -/
def DB.pluckBotTokens (db : DB) (userID channelId : Int) : List String × Option GoError :=
  match db.fault with
  | some e => ([], some e)
  | none =>
    ((db.bots.filter (fun r => r.UserId == userID && r.ChannelId == channelId)).map
      (fun r => r.Token), none)

/-! ## Runs -/

/-- An effect a lookup performs on one of its collaborators. -/
inductive Effect where
  | cacheSet (key : String) (value : CacheValue) (ttl : Duration)
  | storeQuery
  | getMessages (ids : List Int) (channelID : Int)
  deriving DecidableEq, Repr

/-- The result of running a lookup: what it returns, the cache it leaves and
the effects it performed, in order. -/
structure Run (α : Type) where
  ret : α
  cache : Cache
  effects : List Effect
  deriving DecidableEq, Repr

/-- The transport call `tgc.GetMessages(ctx, client.API(), ids, channelID)` as
seen by `getParts`: the records on success, the error otherwise (a cancelled
context is one such error). -/
abbrev Transport := List Int → Int → Except GoError (List MessageClass)

/-! ## `pkg/services/common.go` -/

/-- One iteration of the loop of `getParts` (common.go lines 43-54) at index
`i` on record `message`: the three assertions, then the part built from the
`i`-th declared part and the document. -/
def loopBody (decryptedSize : Int → Int × Option GoError) (file : File)
    (i : Nat) (message : MessageClass) : Except Panic Part := do
  let item ← assertMessage message
  let media ← assertMediaDocument item.Media
  let document ← assertDocument media.Document
  match file.Parts[i]? with
  | none => .error (.indexOutOfRange i file.Parts.length)
  | some declared =>
    let part : Part :=
      { ID := declared.ID, Size := document.Size, Salt := declared.Salt.Value,
        DecryptedSize := 0 }
    if file.Encrypted.IsSet && file.Encrypted.Value then
      .ok { part with DecryptedSize := (decryptedSize document.Size).1 }
    else
      .ok part

/-- The loop of `getParts` (common.go lines 42-56) from index `i` on, with the
parts appended so far. -/
def partsLoop (decryptedSize : Int → Int × Option GoError) (file : File) :
    Nat → List MessageClass → List Part → Except Panic (List Part)
  | _, [], parts => .ok parts
  | i, message :: rest, parts =>
    match loopBody decryptedSize file i message with
    | .error p => .error p
    | .ok part => partsLoop decryptedSize file (i + 1) rest (parts ++ [part])

/-- Source `getParts` (common.go lines 20-59).  `decryptedSize` is
`crypt.DecryptedSize`, whose error result the code discards. -/
def getParts (transport : Transport) (decryptedSize : Int → Int × Option GoError)
    (cache : Cache) (file : File) : Run (Outcome (List Part)) :=
  let parts : List Part := []
  let key := partsKey file.ID.Value
  match cache.GetParts key with
  | some cached => { ret := .returned cached none, cache := cache, effects := [] }
  | none =>
    let ids := file.Parts.map (fun part => part.ID)
    let call := Effect.getMessages ids file.ChannelId.Value
    match transport ids file.ChannelId.Value with
    | .error err => { ret := .returned [] (some err), cache := cache, effects := [call] }
    | .ok messages =>
      match partsLoop decryptedSize file 0 messages parts with
      | .error p => { ret := .panicked p, cache := cache, effects := [call] }
      | .ok parts =>
        { ret := .returned parts none
          cache := cache.Set key (.parts parts) (60 * timeMinute)
          effects := [call, .cacheSet key (.parts parts) (60 * timeMinute)] }

/-- Source `getDefaultChannel` (common.go lines 61-86). -/
def getDefaultChannel (db : DB) (cache : Cache) (userID : Int) : Run (Int × Option GoError) :=
  let channelId : Int := 0
  let key := channelKey userID
  match cache.GetInt64 key with
  | some cached => { ret := (cached, none), cache := cache, effects := [] }
  | none =>
    let channelIds := (db.pluckSelectedChannels userID).1
    let after : Run Int :=
      if h : channelIds.length = 1 then
        let channelId := channelIds[0]
        { ret := channelId
          cache := cache.Set key (.int64 channelId) 0
          effects := [.storeQuery, .cacheSet key (.int64 channelId) 0] }
      else
        { ret := channelId, cache := cache, effects := [.storeQuery] }
    if after.ret = 0 then
      { ret := (after.ret, some (errorsNew "default channel not set"))
        cache := after.cache, effects := after.effects }
    else
      { ret := (after.ret, none), cache := after.cache, effects := after.effects }

/-- Source `getBotsToken` (common.go lines 88-107). -/
def getBotsToken (db : DB) (cache : Cache) (userID channelId : Int) :
    Run (List String × Option GoError) :=
  let key := botsKey userID channelId
  match cache.GetStrings key with
  | some cached => { ret := (cached, none), cache := cache, effects := [] }
  | none =>
    match db.pluckBotTokens userID channelId with
    | (_, some err) => { ret := ([], some err), cache := cache, effects := [.storeQuery] }
    | (bots, none) =>
      { ret := (bots, none)
        cache := cache.Set key (.strings bots) 0
        effects := [.storeQuery, .cacheSet key (.strings bots) 0] }

/-- Successive calls of `getDefaultChannel` for one tenant: the first on
`cache`, each later one on the cache its predecessor left, the `k`-th against
the `k`-th of the given store states.  The runs are listed in call order. -/
def defaultChannelCalls (userID : Int) : Cache → List DB → List (Run (Int × Option GoError))
  | _, [] => []
  | cache, db :: dbs =>
    getDefaultChannel db cache userID ::
      defaultChannelCalls userID (getDefaultChannel db cache userID).cache dbs

/-- The three cache-aside lookups, each with the identifiers its key is
derived from. -/
inductive Lookup where
  | parts (fileID : String)
  | defaultChannel (userID : Int)
  | botsToken (userID channelId : Int)
  deriving DecidableEq, Repr

/-- The cache key a lookup reads and writes. -/
def Lookup.key : Lookup → String
  | .parts fileID => partsKey fileID
  | .defaultChannel userID => channelKey userID
  | .botsToken userID channelId => botsKey userID channelId

/-- Reading back a printed natural number: the value of a list of decimal
digit characters, most significant first. -/
def parseNat (cs : List Char) : Nat :=
  Nat.ofDigits 10 ((cs.reverse).map (fun c => c.toNat - 48))

/-- Reading back a printed integer. -/
def parseInt : List Char → Int
  | '-' :: cs => - (parseNat cs : Int)
  | cs => (parseNat cs : Int)

/-! ## Theorems -/

/-! ### Printing integers -/

theorem digitsFuel_eq_digits (fuel : Nat) : ∀ n, n ≤ fuel → digitsFuel fuel n = Nat.digits 10 n := by
  induction fuel with
  | zero =>
    intro n hn
    have : n = 0 := by omega
    subst this
    simp [digitsFuel]
  | succ f ih =>
    intro n hn
    by_cases h0 : n = 0
    · subst h0
      simp [digitsFuel]
    · have hdiv : n / 10 ≤ f := by omega
      rw [digitsFuel, if_neg h0, ih _ hdiv, Nat.digits_def' (by norm_num) (Nat.pos_of_ne_zero h0)]

theorem digitChar_toNat : ∀ d, d < 10 → (digitChar d).toNat - 48 = d := by
  decide

theorem digitChar_ne_minus : ∀ d, d < 10 → digitChar d ≠ '-' := by
  decide

theorem digitChar_ne_colon : ∀ d, d < 10 → digitChar d ≠ ':' := by
  decide

theorem mem_natDigits {n : Nat} {c : Char} (hc : c ∈ natDigits n) :
    ∃ d, d < 10 ∧ c = digitChar d := by
  unfold natDigits at hc
  split at hc
  · refine ⟨0, by norm_num, ?_⟩
    simp at hc
    rw [hc]
    decide
  · rw [digitsFuel_eq_digits n n le_rfl] at hc
    simp only [List.mem_map, List.mem_reverse] at hc
    obtain ⟨d, hd, rfl⟩ := hc
    exact ⟨d, Nat.digits_lt_base (by norm_num) hd, rfl⟩

theorem natDigits_ne_nil (n : Nat) : natDigits n ≠ [] := by
  unfold natDigits
  split
  · simp
  · rename_i h
    rw [digitsFuel_eq_digits n n le_rfl]
    simpa [Nat.digits_eq_nil_iff_eq_zero] using h

theorem parseNat_natDigits (n : Nat) : parseNat (natDigits n) = n := by
  unfold natDigits parseNat
  split
  · rename_i h
    subst h
    simp
  · rw [digitsFuel_eq_digits n n le_rfl]
    have hmap : (((Nat.digits 10 n).reverse.map digitChar).reverse).map
        (fun c => c.toNat - 48) = Nat.digits 10 n := by
      rw [← List.map_reverse, List.reverse_reverse, List.map_map]
      conv_rhs => rw [← List.map_id (Nat.digits 10 n)]
      apply List.map_congr_left
      intro d hd
      exact digitChar_toNat d (Nat.digits_lt_base (by norm_num) hd)
    rw [hmap, Nat.ofDigits_digits]

theorem parseInt_formatInt (i : Int) : parseInt (formatInt i) = i := by
  unfold formatInt
  split
  · rename_i h
    simp only [parseInt, parseNat_natDigits]
    omega
  · rename_i h
    have hne := natDigits_ne_nil i.natAbs
    cases hd : natDigits i.natAbs with
    | nil => exact absurd hd hne
    | cons c cs =>
      have hc : c ∈ natDigits i.natAbs := by rw [hd]; simp
      obtain ⟨d, hd10, rfl⟩ := mem_natDigits hc
      have hminus := digitChar_ne_minus d hd10
      have hval : parseInt (digitChar d :: cs) = (parseNat (digitChar d :: cs) : Int) := by
        unfold parseInt
        split
        · rename_i heq
          simp at heq
          exact absurd heq.1 hminus
        · rfl
      rw [hval, ← hd, parseNat_natDigits]
      omega

theorem formatInt_injective : Function.Injective formatInt :=
  Function.LeftInverse.injective parseInt_formatInt

theorem colon_not_mem_formatInt (i : Int) : ':' ∉ formatInt i := by
  intro hmem
  have hnat : ':' ∉ natDigits i.natAbs := by
    intro h
    obtain ⟨d, hd, heq⟩ := mem_natDigits h
    exact digitChar_ne_colon d hd heq.symm
  unfold formatInt at hmem
  split at hmem
  · simp at hmem
    exact hnat hmem
  · exact hnat hmem

/-- Two lists split at the first occurrence of a separator agree piecewise. -/
theorem split_at_separator {α : Type} {c : α} :
    ∀ {a a2 b b2 : List α}, c ∉ a → c ∉ a2 → a ++ c :: b = a2 ++ c :: b2 → a = a2 ∧ b = b2 := by
  intro a
  induction a with
  | nil =>
    intro a2 b b2 _ h2 h
    cases a2 with
    | nil => simpa using h
    | cons x xs =>
      simp at h
      exact absurd (by rw [h.1]; simp) h2
  | cons y ys ih =>
    intro a2 b b2 h1 h2 h
    cases a2 with
    | nil =>
      simp at h
      exact absurd (by rw [← h.1]; simp) h1
    | cons x xs =>
      simp at h
      have hy : c ∉ ys := fun hm => h1 (List.mem_cons_of_mem _ hm)
      have hx : c ∉ xs := fun hm => h2 (List.mem_cons_of_mem _ hm)
      obtain ⟨e1, e2⟩ := ih hy hx h.2
      exact ⟨by rw [h.1, e1], e2⟩

/-! ### Cache keys -/

theorem partsKey_data (fileID : String) :
    (partsKey fileID).data = "files:messages:".data ++ fileID.data := by
  simp [partsKey]

theorem channelKey_data (userID : Int) :
    (channelKey userID).data = "users:channel:".data ++ formatInt userID := by
  simp [channelKey]

theorem botsKey_data (userID channelId : Int) :
    (botsKey userID channelId).data =
      "users:bots:".data ++ (formatInt userID ++ ':' :: formatInt channelId) := by
  simp [botsKey]

theorem lookup_filter_of_ne {β : Type} {k k2 : String} (h : k2 ≠ k) :
    ∀ xs : List (String × β), List.lookup k2 (xs.filter (fun kv => kv.1 != k)) =
      List.lookup k2 xs := by
  intro xs
  induction xs with
  | nil => rfl
  | cons x rest ih =>
    obtain ⟨a, b⟩ := x
    by_cases hak : a = k
    · subst hak
      have hne : (k2 == a) = false := by simpa using h
      simp [List.filter, List.lookup, hne, ih]
    · have hkeep : (a != k) = true := by simpa using hak
      simp only [List.filter, hkeep, List.lookup]
      rw [ih]

/-- Writing under one key leaves what every other key holds. -/
theorem Cache.entry_Set_of_ne (c : Cache) {key key2 : String} (h : key2 ≠ key)
    (v : CacheValue) (ttl : Duration) :
    (c.Set key v ttl).entry key2 = c.entry key2 := by
  have hne : (key2 == key) = false := by simpa using h
  simp only [Cache.Set, Cache.entry, List.lookup, hne]
  exact lookup_filter_of_ne h c

/-- C10: the key derivations of the three lookups are jointly injective: two
lookups have the same cache key only if they are the same operation on the
same identifiers (for all integers, hence for all signed 64-bit ids); so a
value written by one lookup is never read back by another one: a write under
the key of a lookup leaves the entry under the key of every other lookup as
it was. -/
theorem Lookup_key_injective :
    Function.Injective Lookup.key ∧
    ∀ (a b : Lookup) (cache : Cache) (v : CacheValue) (ttl : Duration), a ≠ b →
      (cache.Set a.key v ttl).entry b.key = cache.entry b.key := by
  have hinj : Function.Injective Lookup.key := by
    intro x y h
    have hd : (Lookup.key x).data = (Lookup.key y).data := by rw [h]
    cases x <;> cases y <;>
      simp only [Lookup.key, partsKey_data, channelKey_data, botsKey_data] at hd
    · have := List.append_cancel_left hd
      rw [String.ext this]
    · exact absurd hd (by simp)
    · exact absurd hd (by simp)
    · exact absurd hd (by simp)
    · have := formatInt_injective (List.append_cancel_left hd)
      rw [this]
    · exact absurd hd (by simp)
    · exact absurd hd (by simp)
    · exact absurd hd (by simp)
    · have h2 := List.append_cancel_left hd
      obtain ⟨e1, e2⟩ := split_at_separator (colon_not_mem_formatInt _)
        (colon_not_mem_formatInt _) h2
      rw [formatInt_injective e1, formatInt_injective e2]
  refine ⟨hinj, ?_⟩
  intro a b cache v ttl hab
  exact Cache.entry_Set_of_ne cache (fun hk => hab (hinj hk.symm)) v ttl

/-- Witness for C10: the default channel of tenant 12 and the bots of tenant 1
on channel 2 have different keys, and writing the former leaves the latter's
entry in place. -/
theorem Lookup_key_injective_witness :
    Lookup.defaultChannel 12 ≠ Lookup.botsToken 1 2 ∧
    (Cache.Set [("users:bots:1:2", ⟨.strings ["t"], 0⟩)] (Lookup.defaultChannel 12).key
        (.int64 5) 0).entry (Lookup.botsToken 1 2).key =
      Cache.entry [("users:bots:1:2", ⟨.strings ["t"], 0⟩)] (Lookup.botsToken 1 2).key :=
  ⟨by decide,
   Lookup_key_injective.2 (Lookup.defaultChannel 12) (Lookup.botsToken 1 2)
     [("users:bots:1:2", ⟨.strings ["t"], 0⟩)] (.int64 5) 0 (by decide)⟩

/-! ### The cache store -/

theorem Cache.entry_Set (c : Cache) (key : String) (v : CacheValue) (ttl : Duration) :
    (c.Set key v ttl).entry key = some { value := v, ttl := ttl } := by
  simp [Cache.Set, Cache.entry, List.lookup]

theorem Cache.GetInt64_of_entry_none {c : Cache} {key : String} (h : c.entry key = none) :
    c.GetInt64 key = none := by
  simp [Cache.GetInt64, h]

theorem Cache.GetStrings_of_entry_none {c : Cache} {key : String} (h : c.entry key = none) :
    c.GetStrings key = none := by
  simp [Cache.GetStrings, h]

theorem Cache.GetParts_of_entry_none {c : Cache} {key : String} (h : c.entry key = none) :
    c.GetParts key = none := by
  simp [Cache.GetParts, h]

theorem Cache.GetInt64_Set (c : Cache) (key : String) (n : Int) (ttl : Duration) :
    (c.Set key (.int64 n) ttl).GetInt64 key = some n := by
  simp [Cache.GetInt64, Cache.entry_Set]

theorem Cache.GetStrings_Set (c : Cache) (key : String) (ss : List String) (ttl : Duration) :
    (c.Set key (.strings ss) ttl).GetStrings key = some ss := by
  simp [Cache.GetStrings, Cache.entry_Set]

theorem Cache.GetParts_Set (c : Cache) (key : String) (ps : List Part) (ttl : Duration) :
    (c.Set key (.parts ps) ttl).GetParts key = some ps := by
  simp [Cache.GetParts, Cache.entry_Set]

/-! ### `getDefaultChannel` -/

/-- A miss of `getDefaultChannel` whose query puts exactly one channel in the
destination slice. -/
theorem getDefaultChannel_miss_one {db : DB} {cache : Cache} {userID c : Int}
    (hmiss : cache.entry (channelKey userID) = none)
    (hq : (db.pluckSelectedChannels userID).1 = [c]) :
    getDefaultChannel db cache userID =
      { ret := (c, if c = 0 then some (errorsNew "default channel not set") else none)
        cache := cache.Set (channelKey userID) (.int64 c) 0
        effects := [.storeQuery, .cacheSet (channelKey userID) (.int64 c) 0] } := by
  unfold getDefaultChannel
  simp only [Cache.GetInt64_of_entry_none hmiss, hq]
  by_cases hc : c = 0 <;> simp [hc]

/-- A miss of `getDefaultChannel` whose query leaves zero or several channels
in the destination slice. -/
theorem getDefaultChannel_miss_other {db : DB} {cache : Cache} {userID : Int}
    (hmiss : cache.entry (channelKey userID) = none)
    (hq : ((db.pluckSelectedChannels userID).1).length ≠ 1) :
    getDefaultChannel db cache userID =
      { ret := (0, some (errorsNew "default channel not set"))
        cache := cache
        effects := [.storeQuery] } := by
  unfold getDefaultChannel
  simp only [Cache.GetInt64_of_entry_none hmiss]
  simp [hq]

/-- A hit of `getDefaultChannel`. -/
theorem getDefaultChannel_hit {db : DB} {cache : Cache} {userID c : Int}
    (hhit : cache.GetInt64 (channelKey userID) = some c) :
    getDefaultChannel db cache userID = { ret := (c, none), cache := cache, effects := [] } := by
  unfold getDefaultChannel
  simp only [hhit]

/-- Calls that start on a cache holding `c` under the tenant's key all hit:
each returns `c` with no error, leaves the cache as it is and performs no
effect. -/
theorem defaultChannelCalls_hit {userID c : Int} (dbs : List DB) :
    ∀ {cache : Cache}, cache.GetInt64 (channelKey userID) = some c →
      ∀ r ∈ defaultChannelCalls userID cache dbs,
        r = { ret := (c, none), cache := cache, effects := [] } := by
  induction dbs with
  | nil =>
    intro cache _ r hr
    simp [defaultChannelCalls] at hr
  | cons db rest ih =>
    intro cache hhit r hr
    have hrun : getDefaultChannel db cache userID =
        { ret := (c, none), cache := cache, effects := [] } := getDefaultChannel_hit hhit
    simp only [defaultChannelCalls, List.mem_cons] at hr
    rcases hr with h | h
    · rw [h, hrun]
    · rw [hrun] at h
      exact ih hhit r h

/-- C1, counterexample: tenant 1 has exactly one selected channel, with id 0,
and the cache is empty; the first call returns the error "default channel
not set" instead of (0, no error), although it stores 0 under the key. -/
theorem getDefaultChannel_exactly_one_zero_fails :
    Cache.entry [] (channelKey 1) = none ∧
    DB.pluckSelectedChannels ⟨[⟨0, 1, true⟩], [], none⟩ 1 = ([0], none) ∧
    (getDefaultChannel ⟨[⟨0, 1, true⟩], [], none⟩ [] 1).ret =
      (0, some (errorsNew "default channel not set")) ∧
    (getDefaultChannel ⟨[⟨0, 1, true⟩], [], none⟩ [] 1).ret ≠ (0, none) := by
  decide

/-- C1, amended: for every tenant id, every cache with no entry under the
tenant's key and every store whose query selects exactly one channel `c` with
`c ≠ 0`, the first call queries the store once, returns (c, no error) and
leaves `c` under "users:channel:<tenantID>" with ttl 0 (no expiry); every
subsequent call, whatever the store then holds, returns (c, no error), leaves
the cache as it is and performs no effect (no store query, no cache write). -/
theorem getDefaultChannel_exactly_one_nonzero (db : DB) (cache : Cache) (userID c : Int)
    (hmiss : cache.entry (channelKey userID) = none)
    (hq : db.pluckSelectedChannels userID = ([c], none))
    (hc : c ≠ 0) :
    (getDefaultChannel db cache userID).ret = (c, none) ∧
    (getDefaultChannel db cache userID).effects =
      [.storeQuery, .cacheSet (channelKey userID) (.int64 c) 0] ∧
    (getDefaultChannel db cache userID).cache.entry (channelKey userID) =
      some { value := .int64 c, ttl := 0 } ∧
    ∀ (dbs : List DB),
      ∀ r ∈ defaultChannelCalls userID (getDefaultChannel db cache userID).cache dbs,
        r = { ret := (c, none), cache := (getDefaultChannel db cache userID).cache,
              effects := [] } := by
  have hq1 : (db.pluckSelectedChannels userID).1 = [c] := by rw [hq]
  have hrun := getDefaultChannel_miss_one hmiss hq1
  rw [hrun, if_neg hc]
  refine ⟨rfl, rfl, Cache.entry_Set _ _ _ _, ?_⟩
  intro dbs r hr
  exact defaultChannelCalls_hit dbs (Cache.GetInt64_Set _ _ _ _) r hr

/-- Witness for the amended C1: tenant 1 with selected channel 5 (and an
unselected one, and a channel of another tenant), empty cache. -/
theorem getDefaultChannel_exactly_one_nonzero_witness :
    Cache.entry [] (channelKey 1) = none ∧
    DB.pluckSelectedChannels ⟨[⟨5, 1, true⟩, ⟨6, 1, false⟩, ⟨7, 2, true⟩], [], none⟩ 1 =
      ([5], none) ∧
    (getDefaultChannel ⟨[⟨5, 1, true⟩, ⟨6, 1, false⟩, ⟨7, 2, true⟩], [], none⟩ [] 1).ret =
      (5, none) :=
  ⟨by decide, by decide,
   (getDefaultChannel_exactly_one_nonzero
      ⟨[⟨5, 1, true⟩, ⟨6, 1, false⟩, ⟨7, 2, true⟩], [], none⟩ [] 1 5
      (by decide) (by decide) (by decide)).1⟩

/-- C2: for every tenant id, every cache with no entry under the tenant's key
and every store whose query selects zero or at least two channels, the call
queries the store once, fails with the error "default channel not set" and
leaves the cache unchanged, performing no cache write; a later call on that
cache, against a store whose query selects exactly one channel `c`, queries the
store again, takes `c` from it and stores it (returning no error when `c ≠ 0`). -/
theorem getDefaultChannel_zero_or_multiple (db : DB) (cache : Cache) (userID : Int)
    (ids : List Int)
    (hmiss : cache.entry (channelKey userID) = none)
    (hq : db.pluckSelectedChannels userID = (ids, none))
    (hn : ids.length = 0 ∨ 2 ≤ ids.length) :
    getDefaultChannel db cache userID =
      { ret := (0, some (errorsNew "default channel not set"))
        cache := cache
        effects := [.storeQuery] } ∧
    ∀ (db2 : DB) (c : Int), db2.pluckSelectedChannels userID = ([c], none) →
      (getDefaultChannel db2 (getDefaultChannel db cache userID).cache userID).effects =
        [.storeQuery, .cacheSet (channelKey userID) (.int64 c) 0] ∧
      (getDefaultChannel db2 (getDefaultChannel db cache userID).cache userID).ret.1 = c ∧
      (c ≠ 0 →
        (getDefaultChannel db2 (getDefaultChannel db cache userID).cache userID).ret =
          (c, none)) := by
  have hlen : ((db.pluckSelectedChannels userID).1).length ≠ 1 := by
    rw [hq]
    show ids.length ≠ 1
    omega
  have hrun := getDefaultChannel_miss_other hmiss hlen
  refine ⟨hrun, ?_⟩
  intro db2 c hq2
  have hq21 : (db2.pluckSelectedChannels userID).1 = [c] := by rw [hq2]
  rw [hrun]
  rw [getDefaultChannel_miss_one hmiss hq21]
  refine ⟨rfl, rfl, ?_⟩
  intro hc
  simp [hc]

/-- Witness for C2: tenant 1 with two selected channels (8 and 9), empty
cache. -/
theorem getDefaultChannel_zero_or_multiple_witness :
    Cache.entry [] (channelKey 1) = none ∧
    DB.pluckSelectedChannels ⟨[⟨8, 1, true⟩, ⟨9, 1, true⟩], [], none⟩ 1 = ([8, 9], none) ∧
    getDefaultChannel ⟨[⟨8, 1, true⟩, ⟨9, 1, true⟩], [], none⟩ [] 1 =
      { ret := (0, some (errorsNew "default channel not set"))
        cache := []
        effects := [.storeQuery] } :=
  ⟨by decide, by decide,
   (getDefaultChannel_zero_or_multiple ⟨[⟨8, 1, true⟩, ⟨9, 1, true⟩], [], none⟩ [] 1 [8, 9]
      (by decide) (by decide) (by decide)).1⟩

/-- C5, the code at the failing input: the store is out of order (every query
fails with "connection refused") and the cache is empty; `getDefaultChannel`
returns the error "default channel not set", not the query's error, and
writes nothing to the cache. -/
theorem getDefaultChannel_store_failure_masked :
    (DB.pluckSelectedChannels ⟨[⟨5, 1, true⟩], [], some ⟨"connection refused"⟩⟩ 1).2 =
      some ⟨"connection refused"⟩ ∧
    getDefaultChannel ⟨[⟨5, 1, true⟩], [], some ⟨"connection refused"⟩⟩ [] 1 =
      { ret := (0, some (errorsNew "default channel not set"))
        cache := []
        effects := [.storeQuery] } ∧
    (getDefaultChannel ⟨[⟨5, 1, true⟩], [], some ⟨"connection refused"⟩⟩ [] 1).ret.2 ≠
      some ⟨"connection refused"⟩ := by
  decide

/-! ### `getBotsToken` -/

/-- A hit of `getBotsToken`. -/
theorem getBotsToken_hit {db : DB} {cache : Cache} {userID channelId : Int} {ts : List String}
    (hhit : cache.GetStrings (botsKey userID channelId) = some ts) :
    getBotsToken db cache userID channelId =
      { ret := (ts, none), cache := cache, effects := [] } := by
  unfold getBotsToken
  simp only [hhit]

/-- C7: for every tenant id, channel id and cache with no entry under
"users:bots:<tenantID>:<channelID>": if the store query fails with error `e`,
the call returns (nil, e), leaves the cache unchanged and writes nothing to it;
if the query succeeds with token list `ts` (the empty list included), the call
returns (ts, no error) and leaves `ts` under that key with ttl 0 (no expiry),
and the next call, whatever the store then holds, returns (ts, no error)
without any effect (no store query). -/
theorem getBotsToken_caches_on_success (db : DB) (cache : Cache) (userID channelId : Int)
    (hmiss : cache.entry (botsKey userID channelId) = none) :
    (∀ e, (db.pluckBotTokens userID channelId).2 = some e →
      getBotsToken db cache userID channelId =
        { ret := ([], some e), cache := cache, effects := [.storeQuery] }) ∧
    (∀ ts, db.pluckBotTokens userID channelId = (ts, none) →
      (getBotsToken db cache userID channelId).ret = (ts, none) ∧
      (getBotsToken db cache userID channelId).effects =
        [.storeQuery, .cacheSet (botsKey userID channelId) (.strings ts) 0] ∧
      (getBotsToken db cache userID channelId).cache.entry (botsKey userID channelId) =
        some { value := .strings ts, ttl := 0 } ∧
      ∀ db2 : DB,
        getBotsToken db2 (getBotsToken db cache userID channelId).cache userID channelId =
          { ret := (ts, none), cache := (getBotsToken db cache userID channelId).cache,
            effects := [] }) := by
  constructor
  · intro e he
    unfold getBotsToken
    simp only [Cache.GetStrings_of_entry_none hmiss]
    split
    · rename_i bots err heq
      rw [heq] at he
      simp at he
      rw [he]
    · rename_i bots heq
      rw [heq] at he
      simp at he
  · intro ts hts
    have hrun : getBotsToken db cache userID channelId =
        { ret := (ts, none)
          cache := cache.Set (botsKey userID channelId) (.strings ts) 0
          effects := [.storeQuery, .cacheSet (botsKey userID channelId) (.strings ts) 0] } := by
      unfold getBotsToken
      simp only [Cache.GetStrings_of_entry_none hmiss, hts]
    rw [hrun]
    refine ⟨rfl, rfl, Cache.entry_Set _ _ _ _, ?_⟩
    intro db2
    exact getBotsToken_hit (Cache.GetStrings_Set _ _ _ _)

/-- Witness for C7: tenant 1 and channel 5 with an empty cache, once against
a store out of order and once against a store with no bot for the channel. -/
theorem getBotsToken_caches_on_success_witness :
    Cache.entry [] (botsKey 1 5) = none ∧
    getBotsToken ⟨[], [⟨"t", 1, 5⟩], some ⟨"connection refused"⟩⟩ [] 1 5 =
      { ret := ([], some ⟨"connection refused"⟩), cache := [], effects := [.storeQuery] } ∧
    (getBotsToken ⟨[], [⟨"t", 2, 5⟩], none⟩ [] 1 5).cache.entry (botsKey 1 5) =
      some { value := .strings [], ttl := 0 } :=
  ⟨by decide,
   (getBotsToken_caches_on_success ⟨[], [⟨"t", 1, 5⟩], some ⟨"connection refused"⟩⟩ [] 1 5
      (by decide)).1 ⟨"connection refused"⟩ (by decide),
   ((getBotsToken_caches_on_success ⟨[], [⟨"t", 2, 5⟩], none⟩ [] 1 5
      (by decide)).2 [] (by decide)).2.2.1⟩

/-! ### `getParts` -/

/-- The loop body on a record that carries a document, at an index the file
declares a part for. -/
theorem loopBody_of_document (decryptedSize : Int → Int × Option GoError) (file : File)
    {i : Nat} {m : MessageClass} {d : Document} {declared : ApiPart}
    (hd : documentOf m = some d) (hi : file.Parts[i]? = some declared) :
    loopBody decryptedSize file i m =
      .ok { ID := declared.ID, Size := d.Size, Salt := declared.Salt.Value,
            DecryptedSize :=
              if (file.Encrypted.IsSet && file.Encrypted.Value) = true then
                (decryptedSize d.Size).1
              else 0 } := by
  match m, hd with
  | .message { ID := _, Media := some (.messageMediaDocument { Document := some (.document d2) }) },
      hd =>
    simp only [documentOf, Option.some.injEq] at hd
    subst hd
    simp only [loopBody, assertMessage, assertMediaDocument, assertDocument, bind, Except.bind, hi]
    split <;> rfl

/-- The loop body panics on a record that carries no document. -/
theorem loopBody_of_not_document (decryptedSize : Int → Int × Option GoError) (file : File)
    (i : Nat) {m : MessageClass} (hd : documentOf m = none) :
    ∃ wanted, loopBody decryptedSize file i m = .error (.typeAssertion wanted) := by
  rcases m with id | ⟨id, media⟩ | id
  · exact ⟨_, rfl⟩
  · rcases media with _ | media
    · exact ⟨_, rfl⟩
    · rcases media with _ | ⟨⟨doc⟩⟩ | tag
      · exact ⟨_, rfl⟩
      · rcases doc with _ | doc
        · exact ⟨_, rfl⟩
        · rcases doc with id2 | d
          · exact ⟨_, rfl⟩
          · simp [documentOf] at hd
      · exact ⟨_, rfl⟩
  · exact ⟨_, rfl⟩

/-- The loop body panics past the last declared part. -/
theorem loopBody_of_out_of_range (decryptedSize : Int → Int × Option GoError) (file : File)
    {i : Nat} (m : MessageClass) (hi : file.Parts[i]? = none) :
    ∃ p, loopBody decryptedSize file i m = .error p := by
  cases hd : documentOf m with
  | none =>
    obtain ⟨w, hw⟩ := loopBody_of_not_document decryptedSize file i hd
    exact ⟨_, hw⟩
  | some d =>
    match m, hd with
    | .message { ID := _, Media := some (.messageMediaDocument { Document := some (.document d2) }) },
        hd =>
      refine ⟨.indexOutOfRange i file.Parts.length, ?_⟩
      simp only [loopBody, assertMessage, assertMediaDocument, assertDocument, bind,
        Except.bind, hi]

/-- What a successful loop body says about its part. -/
theorem loopBody_ok {decryptedSize : Int → Int × Option GoError} {file : File}
    {i : Nat} {m : MessageClass} {p : Part} (h : loopBody decryptedSize file i m = .ok p) :
    ∃ d declared, documentOf m = some d ∧ file.Parts[i]? = some declared ∧
      p = { ID := declared.ID, Size := d.Size, Salt := declared.Salt.Value,
            DecryptedSize :=
              if (file.Encrypted.IsSet && file.Encrypted.Value) = true then
                (decryptedSize d.Size).1
              else 0 } := by
  cases hd : documentOf m with
  | none =>
    obtain ⟨w, hw⟩ := loopBody_of_not_document decryptedSize file i hd
    rw [hw] at h
    cases h
  | some d =>
    cases hi : file.Parts[i]? with
    | none =>
      obtain ⟨e, he⟩ := loopBody_of_out_of_range decryptedSize file m hi
      rw [he] at h
      cases h
    | some declared =>
      rw [loopBody_of_document decryptedSize file hd hi] at h
      exact ⟨d, declared, rfl, rfl, (Except.ok.inj h).symm⟩

/-- A successful loop appended one part per record, each the loop body's part
for the record at its index. -/
theorem partsLoop_ok {decryptedSize : Int → Int × Option GoError} {file : File} :
    ∀ (msgs : List MessageClass) (i : Nat) (acc parts : List Part),
      partsLoop decryptedSize file i msgs acc = .ok parts →
      ∃ new, parts = acc ++ new ∧ new.length = msgs.length ∧
        ∀ j m, msgs[j]? = some m →
          ∃ p, new[j]? = some p ∧ loopBody decryptedSize file (i + j) m = .ok p := by
  intro msgs
  induction msgs with
  | nil =>
    intro i acc parts h
    simp only [partsLoop, Except.ok.injEq] at h
    exact ⟨[], by simp [h], rfl, by simp⟩
  | cons m rest ih =>
    intro i acc parts h
    rw [partsLoop] at h
    cases hb : loopBody decryptedSize file i m with
    | error e =>
      rw [hb] at h
      cases h
    | ok part =>
      rw [hb] at h
      obtain ⟨new, hparts, hlen, hall⟩ := ih (i + 1) (acc ++ [part]) parts h
      refine ⟨part :: new, by simp [hparts], by simp [hlen], ?_⟩
      intro j m2 hj
      cases j with
      | zero =>
        simp only [List.getElem?_cons_zero, Option.some.injEq] at hj
        subst hj
        exact ⟨part, by simp, by simpa using hb⟩
      | succ k =>
        simp only [List.getElem?_cons_succ] at hj
        obtain ⟨p, hp, hbody⟩ := hall k m2 hj
        refine ⟨p, by simpa using hp, ?_⟩
        have : i + (k + 1) = i + 1 + k := by omega
        rw [this]
        exact hbody

/-- The loop succeeds when the loop body succeeds on every record at its index. -/
theorem partsLoop_total {decryptedSize : Int → Int × Option GoError} {file : File} :
    ∀ (msgs : List MessageClass) (i : Nat) (acc : List Part),
      (∀ j m, msgs[j]? = some m → ∃ p, loopBody decryptedSize file (i + j) m = .ok p) →
      ∃ parts, partsLoop decryptedSize file i msgs acc = .ok parts := by
  intro msgs
  induction msgs with
  | nil =>
    intro i acc _
    exact ⟨acc, rfl⟩
  | cons m rest ih =>
    intro i acc hall
    obtain ⟨p, hp⟩ := hall 0 m (by simp)
    rw [partsLoop]
    simp only [Nat.add_zero] at hp
    rw [hp]
    apply ih
    intro j m2 hj
    have := hall (j + 1) m2 (by simpa using hj)
    have e : i + (j + 1) = i + 1 + j := by omega
    rw [e] at this
    exact this

/-- A hit of `getParts`. -/
theorem getParts_hit {transport : Transport} {decryptedSize : Int → Int × Option GoError}
    {cache : Cache} {file : File} {ps : List Part}
    (hhit : cache.GetParts (partsKey file.ID.Value) = some ps) :
    getParts transport decryptedSize cache file =
      { ret := .returned ps none, cache := cache, effects := [] } := by
  unfold getParts
  simp only [hhit]

/-- A miss of `getParts` whose fetch succeeds and whose loop completes. -/
theorem getParts_miss_ok {transport : Transport} {decryptedSize : Int → Int × Option GoError}
    {cache : Cache} {file : File} {msgs : List MessageClass} {parts : List Part}
    (hmiss : cache.entry (partsKey file.ID.Value) = none)
    (hfetch : transport (file.Parts.map (fun part => part.ID)) file.ChannelId.Value = .ok msgs)
    (hloop : partsLoop decryptedSize file 0 msgs [] = .ok parts) :
    getParts transport decryptedSize cache file =
      { ret := .returned parts none
        cache := cache.Set (partsKey file.ID.Value) (.parts parts) (60 * timeMinute)
        effects :=
          [.getMessages (file.Parts.map (fun part => part.ID)) file.ChannelId.Value,
           .cacheSet (partsKey file.ID.Value) (.parts parts) (60 * timeMinute)] } := by
  unfold getParts
  simp only [Cache.GetParts_of_entry_none hmiss, hfetch, hloop]

/-- A miss of `getParts` whose fetch succeeds and whose loop panics. -/
theorem getParts_miss_panic {transport : Transport} {decryptedSize : Int → Int × Option GoError}
    {cache : Cache} {file : File} {msgs : List MessageClass} {p : Panic}
    (hmiss : cache.entry (partsKey file.ID.Value) = none)
    (hfetch : transport (file.Parts.map (fun part => part.ID)) file.ChannelId.Value = .ok msgs)
    (hloop : partsLoop decryptedSize file 0 msgs [] = .error p) :
    getParts transport decryptedSize cache file =
      { ret := .panicked p
        cache := cache
        effects :=
          [.getMessages (file.Parts.map (fun part => part.ID)) file.ChannelId.Value] } := by
  unfold getParts
  simp only [Cache.GetParts_of_entry_none hmiss, hfetch, hloop]

/-- The loop completes on records that all carry a document and are no more
than the declared parts. -/
theorem partsLoop_of_well_shaped (decryptedSize : Int → Int × Option GoError) (file : File)
    {msgs : List MessageClass} (hshape : ∀ m ∈ msgs, documentOf m ≠ none)
    (hlen : msgs.length ≤ file.Parts.length) :
    ∃ parts, partsLoop decryptedSize file 0 msgs [] = .ok parts := by
  apply partsLoop_total
  intro j m hj
  have hjlt : j < msgs.length := (List.getElem?_eq_some_iff.mp hj).1
  have hmem : m ∈ msgs := List.getElem?_mem hj
  obtain ⟨d, hd⟩ := Option.ne_none_iff_exists'.mp (hshape m hmem)
  have hjN : j < file.Parts.length := by omega
  have hdecl : file.Parts[0 + j]? = some file.Parts[j] := by
    rw [Nat.zero_add]
    exact List.getElem?_eq_getElem hjN
  exact ⟨_, loopBody_of_document decryptedSize file hd hdecl⟩

/-- A completed loop saw only records that carry a document, and no more
records than the file declares parts. -/
theorem well_shaped_of_partsLoop {decryptedSize : Int → Int × Option GoError} {file : File}
    {msgs : List MessageClass} {parts : List Part}
    (hloop : partsLoop decryptedSize file 0 msgs [] = .ok parts) :
    (∀ m ∈ msgs, documentOf m ≠ none) ∧ msgs.length ≤ file.Parts.length := by
  obtain ⟨new, _, _, hall⟩ := partsLoop_ok msgs 0 [] parts hloop
  constructor
  · intro m hm
    obtain ⟨j, hj⟩ := List.mem_iff_getElem?.mp hm
    obtain ⟨p, _, hbody⟩ := hall j m hj
    obtain ⟨d, declared, hd, _, _⟩ := loopBody_ok hbody
    rw [hd]
    simp
  · by_contra hgt
    have hN : file.Parts.length < msgs.length := by omega
    obtain ⟨p, _, hbody⟩ := hall file.Parts.length msgs[file.Parts.length]
      (List.getElem?_eq_getElem hN)
    obtain ⟨d, declared, _, hdecl, _⟩ := loopBody_ok hbody
    rw [Nat.zero_add] at hdecl
    have := (List.getElem?_eq_some_iff.mp hdecl).1
    omega

/-- C3: for every file with N declared parts, every cache with no entry under
the file's key and every transport whose response is N records that each
carry a document (`docs` lists the documents in response order), `getParts`
calls the transport once and returns, with no error, exactly N parts whose
i-th entry has the i-th declared part's id and salt and the i-th document's
size; it leaves that sequence under "files:messages:<fileID>" with a ttl of
60 minutes; and a following call on that cache, whatever the transport, returns
the same sequence with no effect (no transport call). -/
theorem getParts_declared_order (transport : Transport)
    (decryptedSize : Int → Int × Option GoError) (cache : Cache) (file : File)
    (msgs : List MessageClass) (docs : List Document)
    (hmiss : cache.entry (partsKey file.ID.Value) = none)
    (hfetch : transport (file.Parts.map (fun part => part.ID)) file.ChannelId.Value = .ok msgs)
    (hdocs : msgs.map documentOf = docs.map some)
    (hlen : msgs.length = file.Parts.length) :
    ∃ parts : List Part,
      (getParts transport decryptedSize cache file).ret = .returned parts none ∧
      parts.length = file.Parts.length ∧
      (∀ (i : Nat) (declared : ApiPart) (d : Document),
        file.Parts[i]? = some declared → docs[i]? = some d →
        ∃ p : Part, parts[i]? = some p ∧ p.ID = declared.ID ∧
          p.Salt = declared.Salt.Value ∧ p.Size = d.Size) ∧
      (getParts transport decryptedSize cache file).effects =
        [.getMessages (file.Parts.map (fun part => part.ID)) file.ChannelId.Value,
         .cacheSet (partsKey file.ID.Value) (.parts parts) (60 * timeMinute)] ∧
      (getParts transport decryptedSize cache file).cache.entry (partsKey file.ID.Value) =
        some { value := .parts parts, ttl := 60 * timeMinute } ∧
      ∀ transport2 : Transport,
        getParts transport2 decryptedSize (getParts transport decryptedSize cache file).cache
            file =
          { ret := .returned parts none
            cache := (getParts transport decryptedSize cache file).cache
            effects := [] } := by
  have hshape : ∀ m ∈ msgs, documentOf m ≠ none := by
    intro m hm
    have hmem : documentOf m ∈ msgs.map documentOf := List.mem_map_of_mem _ hm
    rw [hdocs] at hmem
    obtain ⟨d, _, hd⟩ := List.mem_map.mp hmem
    rw [← hd]
    simp
  obtain ⟨parts, hloop⟩ := partsLoop_of_well_shaped decryptedSize file hshape (le_of_eq hlen)
  obtain ⟨new, hnew, hnewlen, hall⟩ := partsLoop_ok msgs 0 [] parts hloop
  rw [List.nil_append] at hnew
  subst hnew
  rw [getParts_miss_ok hmiss hfetch hloop]
  refine ⟨parts, rfl, by rw [hnewlen, hlen], ?_, rfl, Cache.entry_Set _ _ _ _, ?_⟩
  · intro i declared d hdecl hd
    have hsome : (msgs.map documentOf)[i]? = some (some d) := by
      rw [hdocs, List.getElem?_map, hd]
      rfl
    rw [List.getElem?_map] at hsome
    cases hm : msgs[i]? with
    | none =>
      rw [hm] at hsome
      simp at hsome
    | some m =>
      rw [hm] at hsome
      simp only [Option.map_some', Option.some.injEq] at hsome
      obtain ⟨p, hp, hbody⟩ := hall i m hm
      rw [Nat.zero_add] at hbody
      rw [loopBody_of_document decryptedSize file hsome hdecl] at hbody
      have hpeq := Except.ok.inj hbody
      refine ⟨p, hp, ?_, ?_, ?_⟩ <;> rw [← hpeq]
  · intro transport2
    exact getParts_hit (Cache.GetParts_Set _ _ _ _)

/-- Witness for C3: a file "f" with declared parts 11 and 12 in channel 100,
an empty cache and a transport that answers with two document records of
sizes 300 and 400. -/
theorem getParts_declared_order_witness :
    Cache.entry [] (partsKey "f") = none ∧
    ([MessageClass.message ⟨11, some (.messageMediaDocument ⟨some (.document ⟨1, 300⟩)⟩)⟩,
      MessageClass.message ⟨12, some (.messageMediaDocument ⟨some (.document ⟨2, 400⟩)⟩)⟩].map
        documentOf = [(⟨1, 300⟩ : Document), ⟨2, 400⟩].map some) ∧
    ∃ parts : List Part,
      (getParts
        (fun _ _ => .ok
          [.message ⟨11, some (.messageMediaDocument ⟨some (.document ⟨1, 300⟩)⟩)⟩,
           .message ⟨12, some (.messageMediaDocument ⟨some (.document ⟨2, 400⟩)⟩)⟩])
        (fun size => (size - 32, none)) []
        ⟨⟨"f", true⟩, [⟨11, ⟨"a", true⟩⟩, ⟨12, ⟨"b", true⟩⟩], ⟨100, true⟩, ⟨false, false⟩⟩).ret =
          .returned parts none ∧
      parts.length = 2 :=
  ⟨by decide, by decide,
   (getParts_declared_order
      (fun _ _ => .ok
        [.message ⟨11, some (.messageMediaDocument ⟨some (.document ⟨1, 300⟩)⟩)⟩,
         .message ⟨12, some (.messageMediaDocument ⟨some (.document ⟨2, 400⟩)⟩)⟩])
      (fun size => (size - 32, none)) []
      ⟨⟨"f", true⟩, [⟨11, ⟨"a", true⟩⟩, ⟨12, ⟨"b", true⟩⟩], ⟨100, true⟩, ⟨false, false⟩⟩
      _ [⟨1, 300⟩, ⟨2, 400⟩] (by decide) rfl (by decide) rfl).imp
    (fun _ h => ⟨h.1, h.2.1⟩)⟩

/-- C4: on a cache miss with a successful fetch, every part `getParts` returns
has the size of the document in the record at its index, and its
`DecryptedSize` is the value of `crypt.DecryptedSize` at that size when the
file's encrypted flag is set and true, and zero (unset) when the flag is unset
or false. -/
theorem getParts_decrypted_size (transport : Transport)
    (decryptedSize : Int → Int × Option GoError) (cache : Cache) (file : File)
    (msgs : List MessageClass) (parts : List Part)
    (hmiss : cache.entry (partsKey file.ID.Value) = none)
    (hfetch : transport (file.Parts.map (fun part => part.ID)) file.ChannelId.Value = .ok msgs)
    (hret : (getParts transport decryptedSize cache file).ret = .returned parts none) :
    parts.length = msgs.length ∧
    ∀ (i : Nat) (p : Part), parts[i]? = some p →
      ∃ (m : MessageClass) (d : Document),
        msgs[i]? = some m ∧ documentOf m = some d ∧ p.Size = d.Size ∧
        (file.Encrypted.IsSet = true ∧ file.Encrypted.Value = true →
          p.DecryptedSize = (decryptedSize p.Size).1) ∧
        (¬ (file.Encrypted.IsSet = true ∧ file.Encrypted.Value = true) →
          p.DecryptedSize = 0) := by
  cases hloop : partsLoop decryptedSize file 0 msgs [] with
  | error e =>
    rw [getParts_miss_panic hmiss hfetch hloop] at hret
    cases hret
  | ok built =>
    rw [getParts_miss_ok hmiss hfetch hloop] at hret
    have hbuilt : built = parts := by
      simp only [Outcome.returned.injEq, and_true] at hret
      exact hret
    subst hbuilt
    obtain ⟨new, hnew, hnewlen, hall⟩ := partsLoop_ok msgs 0 [] built hloop
    rw [List.nil_append] at hnew
    subst hnew
    refine ⟨hnewlen, ?_⟩
    intro i p hp
    have hi : i < msgs.length := by
      rw [← hnewlen]
      exact (List.getElem?_eq_some_iff.mp hp).1
    obtain ⟨q, hq, hbody⟩ := hall i msgs[i] (List.getElem?_eq_getElem hi)
    rw [hp] at hq
    have hqp : p = q := Option.some.inj hq
    subst hqp
    obtain ⟨d, declared, hd, _, hpeq⟩ := loopBody_ok hbody
    refine ⟨msgs[i], d, List.getElem?_eq_getElem hi, hd, by rw [hpeq], ?_, ?_⟩
    · intro henc
      rw [hpeq]
      simp [henc.1, henc.2]
    · intro henc
      rw [hpeq]
      have : (file.Encrypted.IsSet && file.Encrypted.Value) ≠ true := by
        simpa using henc
      simp only [if_neg this]

/-- Witness for C4: an encrypted file "f" with one declared part, an empty
cache, a transport that answers with one document record of size 300 and a
size mapping that subtracts a 32-byte header: the part is returned with
decrypted size 268. -/
theorem getParts_decrypted_size_witness :
    Cache.entry [] (partsKey "f") = none ∧
    (getParts
      (fun _ _ => .ok
        [.message ⟨11, some (.messageMediaDocument ⟨some (.document ⟨1, 300⟩)⟩)⟩])
      (fun size => (size - 32, none)) []
      ⟨⟨"f", true⟩, [⟨11, ⟨"a", true⟩⟩], ⟨100, true⟩, ⟨true, true⟩⟩).ret =
        .returned [⟨11, 300, "a", 268⟩] none ∧
    [(⟨11, 300, "a", 268⟩ : Part)].length = 1 :=
  ⟨by decide, by decide,
   (getParts_decrypted_size
      (fun _ _ => .ok
        [.message ⟨11, some (.messageMediaDocument ⟨some (.document ⟨1, 300⟩)⟩)⟩])
      (fun size => (size - 32, none)) []
      ⟨⟨"f", true⟩, [⟨11, ⟨"a", true⟩⟩], ⟨100, true⟩, ⟨true, true⟩⟩
      _ [⟨11, 300, "a", 268⟩] (by decide) rfl (by decide)).1⟩

/-- C6: for every file and every cache with no entry under the file's key, if
the transport fetch fails with error `e` (a cancelled call included),
`getParts` returns (no parts, e) with `e` as it came, leaves the cache
unchanged and performs no cache write. -/
theorem getParts_transport_failure (transport : Transport)
    (decryptedSize : Int → Int × Option GoError) (cache : Cache) (file : File) (e : GoError)
    (hmiss : cache.entry (partsKey file.ID.Value) = none)
    (hfail : transport (file.Parts.map (fun part => part.ID)) file.ChannelId.Value = .error e) :
    getParts transport decryptedSize cache file =
      { ret := .returned [] (some e)
        cache := cache
        effects :=
          [.getMessages (file.Parts.map (fun part => part.ID)) file.ChannelId.Value] } := by
  unfold getParts
  simp only [Cache.GetParts_of_entry_none hmiss, hfail]

/-- Witness for C6: the transport call is cancelled ("context canceled") while
another file's parts are cached; the cache is returned as it was. -/
theorem getParts_transport_failure_witness :
    Cache.entry [("files:messages:g", ⟨.parts [], 60 * timeMinute⟩)] (partsKey "f") = none ∧
    getParts (fun _ _ => .error ⟨"context canceled"⟩) (fun size => (size - 32, none))
      [("files:messages:g", ⟨.parts [], 60 * timeMinute⟩)]
      ⟨⟨"f", true⟩, [⟨11, ⟨"a", true⟩⟩], ⟨100, true⟩, ⟨false, false⟩⟩ =
      { ret := .returned [] (some ⟨"context canceled"⟩)
        cache := [("files:messages:g", ⟨.parts [], 60 * timeMinute⟩)]
        effects := [.getMessages [11] 100] } :=
  ⟨by decide,
   getParts_transport_failure (fun _ _ => .error ⟨"context canceled"⟩)
     (fun size => (size - 32, none)) [("files:messages:g", ⟨.parts [], 60 * timeMinute⟩)]
     ⟨⟨"f", true⟩, [⟨11, ⟨"a", true⟩⟩], ⟨100, true⟩, ⟨false, false⟩⟩ ⟨"context canceled"⟩
     (by decide) rfl⟩

/-- C9, counterexample: on an empty cache, a file with one declared part whose
message the server reports as empty makes `getParts` abort with a failed
type assertion, and a response of two document records for that file makes it
abort with an index out of range; neither call returns a part list or an
error. -/
theorem getParts_aborts_on_unexpected_response :
    getParts (fun _ _ => .ok [.messageEmpty 11]) (fun size => (size - 32, none)) []
      ⟨⟨"f", true⟩, [⟨11, ⟨"a", true⟩⟩], ⟨100, true⟩, ⟨false, false⟩⟩ =
      { ret := .panicked (.typeAssertion "*tg.Message")
        cache := []
        effects := [.getMessages [11] 100] } ∧
    getParts
      (fun _ _ => .ok
        [.message ⟨11, some (.messageMediaDocument ⟨some (.document ⟨1, 300⟩)⟩)⟩,
         .message ⟨12, some (.messageMediaDocument ⟨some (.document ⟨2, 400⟩)⟩)⟩])
      (fun size => (size - 32, none)) []
      ⟨⟨"f", true⟩, [⟨11, ⟨"a", true⟩⟩], ⟨100, true⟩, ⟨false, false⟩⟩ =
      { ret := .panicked (.indexOutOfRange 1 1)
        cache := []
        effects := [.getMessages [11] 100] } := by
  decide

/-- C9, amended: for every file and every list of records the transport
returns successfully on a cache miss, `getParts` returns a part list (one part
per record, no error) and caches it when every record is a regular message
whose media is a media-document holding a concrete document and the records
are no more than the file's declared parts; on every other response it aborts
with a run-time panic (a failed type assertion or an index out of range),
leaving the cache unchanged. -/
theorem getParts_returns_iff_well_shaped (transport : Transport)
    (decryptedSize : Int → Int × Option GoError) (cache : Cache) (file : File)
    (msgs : List MessageClass)
    (hmiss : cache.entry (partsKey file.ID.Value) = none)
    (hfetch : transport (file.Parts.map (fun part => part.ID)) file.ChannelId.Value = .ok msgs) :
    (((∀ m ∈ msgs, documentOf m ≠ none) ∧ msgs.length ≤ file.Parts.length) →
      ∃ parts : List Part, parts.length = msgs.length ∧
        getParts transport decryptedSize cache file =
          { ret := .returned parts none
            cache := cache.Set (partsKey file.ID.Value) (.parts parts) (60 * timeMinute)
            effects :=
              [.getMessages (file.Parts.map (fun part => part.ID)) file.ChannelId.Value,
               .cacheSet (partsKey file.ID.Value) (.parts parts) (60 * timeMinute)] }) ∧
    (¬ ((∀ m ∈ msgs, documentOf m ≠ none) ∧ msgs.length ≤ file.Parts.length) →
      ∃ p : Panic,
        getParts transport decryptedSize cache file =
          { ret := .panicked p
            cache := cache
            effects :=
              [.getMessages (file.Parts.map (fun part => part.ID)) file.ChannelId.Value] }) := by
  constructor
  · rintro ⟨hshape, hlen⟩
    obtain ⟨parts, hloop⟩ := partsLoop_of_well_shaped decryptedSize file hshape hlen
    obtain ⟨new, hnew, hnewlen, _⟩ := partsLoop_ok msgs 0 [] parts hloop
    rw [List.nil_append] at hnew
    subst hnew
    exact ⟨parts, hnewlen, getParts_miss_ok hmiss hfetch hloop⟩
  · intro hbad
    cases hloop : partsLoop decryptedSize file 0 msgs [] with
    | error p => exact ⟨p, getParts_miss_panic hmiss hfetch hloop⟩
    | ok parts => exact absurd (well_shaped_of_partsLoop hloop) hbad

/-- Witness for the amended C9: a service message among the records makes the
call abort and leaves the empty cache empty. -/
theorem getParts_returns_iff_well_shaped_witness :
    Cache.entry [] (partsKey "f") = none ∧
    ∃ p : Panic,
      getParts (fun _ _ => .ok [.messageService 11]) (fun size => (size - 32, none)) []
        ⟨⟨"f", true⟩, [⟨11, ⟨"a", true⟩⟩], ⟨100, true⟩, ⟨false, false⟩⟩ =
        { ret := .panicked p, cache := [], effects := [.getMessages [11] 100] } :=
  ⟨by decide,
   (getParts_returns_iff_well_shaped (fun _ _ => .ok [.messageService 11])
      (fun size => (size - 32, none)) []
      ⟨⟨"f", true⟩, [⟨11, ⟨"a", true⟩⟩], ⟨100, true⟩, ⟨false, false⟩⟩
      [.messageService 11] (by decide) rfl).2 (by decide)⟩

/-! ### Middleware assembly -/

/-- A value in the range of `int64` is its own reduction. -/
theorem wrapInt64_of_range {x : Int} (hlo : -(2 ^ 63) ≤ x) (hhi : x < 2 ^ 63) :
    wrapInt64 x = x := by
  unfold wrapInt64
  rw [Int.emod_eq_of_lt (by omega) (by omega)]
  omega

/-- C8, counterexample: with the rate limiter enabled and
`config.Rate = 9223372036855`, the product `time.Millisecond * config.Rate`
exceeds the range of `int64` and wraps: the limiter at the end of the list is
built with an interval of -9223372036854551616 nanoseconds, which is not
9223372036855 milliseconds. -/
theorem Middlewares_rate_interval_wraps :
    (Middlewares ⟨15 * timeMinute, true, 9223372036855, 5⟩ 3)[3]? =
      some (Middleware.RateLimiter (-9223372036854551616) 5) ∧
    (-9223372036854551616 : Int) ≠ 1000000 * 9223372036855 ∧
    (2 : Int) ^ 63 ≤ 1000000 * 9223372036855 := by
  refine ⟨rfl, by decide, by decide⟩

/-- C8, amended: for every configuration and retry count `r`,
`Middlewares config r` is `[FloodWaiter, Recoverer b, Retrier r]` (length 3)
when `config.RateLimit` is false, where `b` is the backoff of `newBackoff`:
initial interval 500 ms, randomization 0.5, multiplier 1.1 (as a `float64`),
ceiling 10 s and elapsed-time budget `config.ReconnectTimeout`; when
`config.RateLimit` is true it is that list followed by exactly one
`RateLimiter` (length 4) with burst `config.RateBurst` and with the interval
`time.Millisecond * config.Rate` computed on `int64`, that is
`1000000 * config.Rate` nanoseconds reduced to 64 bits, which is `config.Rate`
milliseconds whenever this product fits a `time.Duration`.  None of the first
three elements is a rate limiter. -/
theorem Middlewares_fixed_order (config : TGConfig) (r : Int) :
    (config.RateLimit = false →
      Middlewares config r =
        [Middleware.FloodWaiter,
          Middleware.Recoverer
            { InitialInterval := 500000000
              RandomizationFactor := 1 / 2
              Multiplier := 2476979795053773 / 2251799813685248
              MaxInterval := 10000000000
              MaxElapsedTime := config.ReconnectTimeout },
          Middleware.Retrier r] ∧
      (Middlewares config r).length = 3) ∧
    (config.RateLimit = true →
      Middlewares config r =
        [Middleware.FloodWaiter,
          Middleware.Recoverer
            { InitialInterval := 500000000
              RandomizationFactor := 1 / 2
              Multiplier := 2476979795053773 / 2251799813685248
              MaxInterval := 10000000000
              MaxElapsedTime := config.ReconnectTimeout },
          Middleware.Retrier r,
          Middleware.RateLimiter ((1000000 * config.Rate + 2 ^ 63) % 2 ^ 64 - 2 ^ 63)
            config.RateBurst] ∧
      (Middlewares config r).length = 4) ∧
    (∀ i m, i < 3 → (Middlewares config r)[i]? = some m → m.isRateLimiter = false) ∧
    (-(2 ^ 63) ≤ 1000000 * config.Rate → 1000000 * config.Rate < 2 ^ 63 →
      (1000000 * config.Rate + 2 ^ 63) % 2 ^ 64 - 2 ^ 63 = 1000000 * config.Rate) := by
  have hb : newBackoff config.ReconnectTimeout =
      { InitialInterval := 500000000
        RandomizationFactor := 1 / 2
        Multiplier := 2476979795053773 / 2251799813685248
        MaxInterval := 10000000000
        MaxElapsedTime := config.ReconnectTimeout } := rfl
  have hd : durationMul timeMillisecond config.Rate =
      (1000000 * config.Rate + 2 ^ 63) % 2 ^ 64 - 2 ^ 63 := rfl
  refine ⟨?_, ?_, ?_, ?_⟩
  · intro h
    rw [← hb]
    simp [Middlewares, h]
  · intro h
    rw [← hb, ← hd]
    simp [Middlewares, h]
  rotate_left
  · intro hlo hhi
    exact wrapInt64_of_range hlo hhi
  · intro i m hi hm
    have h3 : ∀ j : Nat, j < 3 →
        (Middlewares config r)[j]? =
          [Middleware.FloodWaiter, Middleware.Recoverer (newBackoff config.ReconnectTimeout),
            Middleware.Retrier r][j]? := by
      intro j hj
      unfold Middlewares
      split
      · rw [List.getElem?_append_left (by simpa using hj)]
      · rfl
    rw [h3 i hi] at hm
    interval_cases i <;> simp at hm <;> subst hm <;> rfl

/-- Witness for the amended C8: with the rate limiter enabled (100 ms, burst
5) the interval is 100000000 nanoseconds, and with it disabled the list has
three elements. -/
theorem Middlewares_fixed_order_witness :
    Middlewares ⟨15 * timeMinute, true, 100, 5⟩ 3 =
        [Middleware.FloodWaiter,
          Middleware.Recoverer
            { InitialInterval := 500000000
              RandomizationFactor := 1 / 2
              Multiplier := 2476979795053773 / 2251799813685248
              MaxInterval := 10000000000
              MaxElapsedTime := 900000000000 },
          Middleware.Retrier 3, Middleware.RateLimiter 100000000 5] ∧
    (Middlewares ⟨15 * timeMinute, false, 100, 5⟩ 3).length = 3 ∧
    ((1000000 * 100 + 2 ^ 63) % 2 ^ 64 - 2 ^ 63 : Int) = 1000000 * 100 :=
  ⟨((Middlewares_fixed_order ⟨15 * timeMinute, true, 100, 5⟩ 3).2.1 rfl).1,
   ((Middlewares_fixed_order ⟨15 * timeMinute, false, 100, 5⟩ 3).1 rfl).2,
   (Middlewares_fixed_order ⟨15 * timeMinute, true, 100, 5⟩ 3).2.2.2 (by decide) (by decide)⟩

end Teldrive
